import Mathlib

/-
Verification of the kernel-interface layer ("Fs" utility) of the oomd
resource-pressure daemon, against its natural-language specification.

The repository ships only the unit tests (src/oomd/util/FsTest.cpp) and a
test helper; the Fs implementation itself is not in the tree.  Every
operation below is therefore a shallow embedding reconstructed from the
specification (spec.md sections 4.2, 4.3, 7, 8), with the unit tests used
to pin down behaviour wherever they constrain it.  Strings are embedded as
`List Char`; files as their full character contents; a filesystem as a
partial map from paths to contents.
-/

/-- Modelled from the spec: the character-splitting helper used throughout
the Control-File Codec (`Fs::split(line, delim)` in the missing Fs.cpp,
exercised indirectly by every tokenising test).  It cuts the input at each
delimiter and drops empty items, matching the C++ `getline` loop that only
pushes items with nonzero size.  `cur` is the (reversed) token being
accumulated. -/

def splitNEGo (d : Char) (cur : List Char) : List Char → List (List Char)
  | [] => if cur.isEmpty then [] else [cur.reverse]
  | c :: cs =>
      if c = d then
        if cur.isEmpty then splitNEGo d [] cs else cur.reverse :: splitNEGo d [] cs
      else splitNEGo d (c :: cur) cs

/-- Split on a delimiter, dropping empty tokens (the codec's tokenizer). -/

def splitNE (d : Char) (s : List Char) : List (List Char) := splitNEGo d [] s

/-- Join tokens with a single delimiter between consecutive tokens. -/

def joinD (d : Char) : List (List Char) → List Char
  | [] => []
  | [t] => t
  | t :: ts => t ++ d :: joinD d ts

/-- Modelled from the spec: the line splitter behind `Fs::readFileByLine`
(spec 4.1: handles "line-oriented read").  Unlike the tokenizer it keeps
interior empty lines (the test `ReadFile` expects an empty third line), and
a trailing newline does not produce a final empty line, matching the C++
`getline('\n')` loop. -/

def splitLinesGo (cur : List Char) : List Char → List (List Char)
  | [] => if cur.isEmpty then [] else [cur.reverse]
  | c :: cs =>
      if c = '\n' then cur.reverse :: splitLinesGo [] cs
      else splitLinesGo (c :: cur) cs

/-- Split file contents into lines, `getline`-style. -/

def splitLines (s : List Char) : List (List Char) := splitLinesGo [] s

/-- The ASCII digit character for a value below ten. -/

def digitChar (n : Nat) : Char := Char.ofNat (48 + n)

/-- Decimal rendering of a natural number, fuel-indexed so that it is
structurally recursive (the fuel `n + 1` used by `natRepr` always
suffices).  This embeds the `std::to_string` rendering the write paths of
the codec rely on. -/

def reprNatGo : Nat → Nat → List Char
  | 0, _ => []
  | f + 1, n => if n < 10 then [digitChar n] else reprNatGo f (n / 10) ++ [digitChar (n % 10)]

/-- Decimal rendering of a natural number (`std::to_string`). -/

def natRepr (n : Nat) : List Char := reprNatGo (n + 1) n

/-- Numeric value of an ASCII digit character. -/

def digitVal (c : Char) : Nat := c.toNat - 48

/-- Accumulating decimal parse (the value computed by `std::stoull` on an
all-digit token). -/

def parseNat (l : List Char) : Nat := l.foldl (fun a c => a * 10 + digitVal c) 0

/-- All characters are ASCII digits. -/

def isDigits (l : List Char) : Bool := l.all Char.isDigit

/-- Modelled from the spec: the single-scalar decode used by
`Fs::readMemhighAt`, `Fs::readMemhightmpAt` and the other scalar readers
(spec 4.2): one integer token, with the literal token "max" decoding to the
representable maximum of the unsigned 64-bit domain. -/

def parseU64 (l : List Char) : Option Nat :=
  if l = "max".data then some (2 ^ 64 - 1)
  else if !l.isEmpty && isDigits l then some (parseNat l) else none

/-- The single line of a one-line file, if the file has exactly one line
(scalar control files are read this way). -/

def firstLineOnly (s : List Char) : Option (List Char) :=
  match splitLines s with
  | [l] => some l
  | _ => none

/-- Modelled from the spec: `Fs::writeMemhighAt` — the scalar knob write
overwrites `memory.high` with the decimal rendering of the value. -/

def writeMemhigh (v : Nat) : List Char := natRepr v

/-- Modelled from the spec: `Fs::readMemhighAt` — single-scalar decode of
the contents of `memory.high`. -/

def readMemhigh (contents : List Char) : Option Nat :=
  (firstLineOnly contents).bind parseU64

/-- Modelled from the spec: `Fs::writeMemhightmpAt` — writes the scalar
followed by the revert duration in microseconds on one line ("the same
scalar followed by the duration value in microseconds on one line"). -/

def writeMemhightmp (v usec : Nat) : List Char := natRepr v ++ ' ' :: natRepr usec

/-- Modelled from the spec: `Fs::readMemhightmpAt` — reads back the scalar
part (first token) of the single line of `memory.high.tmp`. -/

def readMemhightmp (contents : List Char) : Option Nat :=
  (firstLineOnly contents).bind fun l =>
    match splitNE ' ' l with
    | t :: _ => parseU64 t
    | [] => none

/-- Strip an exact leading pattern: succeeds with the remainder iff the
subject starts with the pattern. -/

def dropPre : List Char → List Char → Option (List Char)
  | [], s => some s
  | _ :: _, [] => none
  | p :: ps, c :: cs => if p = c then dropPre ps cs else none

/-- The subject starts with the pattern (`compare(0, n, p) == 0`). -/

def startsWith (p s : List Char) : Bool := (dropPre p s).isSome

/-- The pattern occurs somewhere in the subject
(`std::string::find(p) != npos`). -/

def containsSeq (p : List Char) : List Char → Bool
  | [] => p.isEmpty
  | c :: cs => startsWith p (c :: cs) || containsSeq p cs

/-- Modelled from the spec: `Fs::removePrefix(str, prefix)`.  The spec text
says "strips `prefix` from the start of `str` if present, else leaves `str`
unchanged", but the repository's own test (FsTest.cpp, RemovePrefix)
additionally requires the call on `"./var/log/messages"` with pattern
`"var/log/"` to yield `"messages"`, so the reconstruction matching all five
test assertions is: when the pattern occurs anywhere in the string
(`std::string::find`), first strip a leading "./" from the string if the
string starts with "./" and the pattern does not, then erase the first
`prefix.size()` characters; otherwise leave the string unchanged. -/

def removePrefix (str pre : List Char) : List Char :=
  if containsSeq pre str then
    (if startsWith "./".data str && !startsWith "./".data pre
      then str.drop 2 else str).drop pre.length
  else str

/-- Pairwise comparison of leading path segments: does the first list of
segments lead the second (the indexed comparison loop in the C++)? -/

def leadingSegsMatch : List (List Char) → List (List Char) → Bool
  | [], _ => true
  | _ :: _, [] => false
  | a :: as, b :: bs => a == b && leadingSegsMatch as bs

/-- Modelled from the spec: `Fs::isUnderParentPath(parent, path)` — the
containment guard (spec 4.3): empty parent or empty candidate is always
false; otherwise both paths are split into their nonempty `/`-separated
segments, a candidate with fewer segments than the parent is rejected, and
the parent's segments are compared pairwise against the candidate's
leading segments. -/

def isUnderParentPath (parent path : List Char) : Bool :=
  if parent.isEmpty || path.isEmpty then false
  else
    if (splitNE '/' path).length < (splitNE '/' parent).length then false
    else leadingSegsMatch (splitNE '/' parent) (splitNE '/' path)

/-- A filesystem fragment: a partial map from paths to raw file contents;
`none` means the file does not exist. -/

def Filesystem : Type := List Char → Option (List Char)

/-- An open directory handle (`Fs::DirFd`): the directory's entries as an
association list from entry names to file contents. -/

def DirHandle : Type := List (List Char × List Char)

/-- `Fs::Fd::openat(dir, name)`: relative open against an already-open
directory handle; `none` when no entry has that name. -/

def openat (d : DirHandle) (name : List Char) : Option (List Char) :=
  (d.find? (fun e => e.1 == name)).map (fun e => e.2)

/-- Modelled from the spec: `Fs::readFileByLine` — "the Codec never throws
for file absent; it signals absence through an optional-style result"
(spec 7).  A missing file maps to `none`; a present file (however empty)
maps to `some` of its lines. -/

def readFileByLine (contents : Option (List Char)) : Option (List (List Char)) :=
  contents.map splitLines

/-- Line-oriented read through an absolute path. -/

def readFileByLinePath (fs : Filesystem) (p : List Char) :
    Option (List (List Char)) :=
  readFileByLine (fs p)

/-- Line-oriented read through a relative open on a directory handle. -/

def readFileByLineAt (d : DirHandle) (name : List Char) :
    Option (List (List Char)) :=
  readFileByLine (openat d name)

/-- One node of a directory tree: its relative path (segment list) and
whether it is a directory. -/

structure FsEntry where
  path : List (List Char)
  isDir : Bool
deriving DecidableEq

/-- Modelled from the spec: the entry-kind filter of `Fs::readDir`
(spec 4.3 `listEntries(path, filter)`). -/

inductive DirEntFlag
  | DE_DIR
  | DE_FILE
deriving DecidableEq

/-- The partitioned listing returned by `Fs::readDir`. -/

structure DirEnts where
  dirs : List (List Char)
  files : List (List Char)
deriving DecidableEq

/-- Names of the immediate (depth-one) entries of the tree of the
requested kind. -/

def topNames (t : List FsEntry) (wantDir : Bool) : List (List Char) :=
  (t.filter (fun e => e.path.length == 1 && e.isDir == wantDir)).filterMap
    (fun e => e.path.head?)

/-- Modelled from the spec: `Fs::readDir(path, flag)` — a directory
listing partitioned by entry kind; the filter selects directories-only or
files-only. -/

def readDir (t : List FsEntry) (flag : DirEntFlag) : DirEnts :=
  match flag with
  | .DE_DIR => { dirs := topNames t true, files := [] }
  | .DE_FILE => { dirs := [], files := topNames t false }

/-- The `fsDataDir` fixture tree of FsTest.cpp: directories `dir1`
(containing the file `stuff`), `dir2`, `dir3` and `wildcard` (containing
`dir1`, `dir2`, `different_dir` and the file `file`), plus files
`file1`..`file4`. -/

def fsDataDirTree : List FsEntry :=
  [ ⟨["dir1".data], true⟩, ⟨["dir1".data, "stuff".data], false⟩,
    ⟨["dir2".data], true⟩, ⟨["dir3".data], true⟩,
    ⟨["wildcard".data], true⟩,
    ⟨["wildcard".data, "dir1".data], true⟩,
    ⟨["wildcard".data, "dir2".data], true⟩,
    ⟨["wildcard".data, "different_dir".data], true⟩,
    ⟨["wildcard".data, "file".data], false⟩,
    ⟨["file1".data], false⟩, ⟨["file2".data], false⟩,
    ⟨["file3".data], false⟩, ⟨["file4".data], false⟩ ]

/-- Fuel-indexed `*`-wildcard segment matcher; the fuel used by
`globMatch` always suffices, and the matcher is structurally recursive so
that concrete matches compute. -/

def globMatchGo : Nat → List Char → List Char → Bool
  | 0, _, _ => false
  | _ + 1, [], name => name.isEmpty
  | f + 1, p :: ps, [] => p = '*' && globMatchGo f ps []
  | f + 1, p :: ps, c :: cs =>
      if p = '*' then globMatchGo f ps (c :: cs) || globMatchGo f (p :: ps) cs
      else p = c && globMatchGo f ps cs

/-- Does one glob pattern segment (with `*` wildcards) match a name? -/

def globMatch (pat name : List Char) : Bool :=
  globMatchGo (pat.length + name.length + 1) pat name

/-- Modelled from the spec: `Fs::glob(patternPath, dirsOnly)` — `*` is
supported at any path segment, each wildcard segment is expanded
independently against the real directory tree, nonexistent intermediate
segments simply yield zero matches, and `dirsOnly` keeps only
directories. -/

def glob (t : List FsEntry) (pat : List (List Char)) (dirsOnly : Bool) :
    List (List (List Char)) :=
  (t.filter (fun e =>
    e.path.length == pat.length &&
      (List.zip pat e.path).all (fun q => globMatch q.1 q.2) &&
      (!dirsOnly || e.isDir))).map FsEntry.path

/-- The `wildcard` subtree of the fixture: directories `dir1`, `dir2`,
`different_dir` and the file `file`. -/

def wildcardTree : List FsEntry :=
  [ ⟨["dir1".data], true⟩, ⟨["dir2".data], true⟩,
    ⟨["different_dir".data], true⟩, ⟨["file".data], false⟩ ]

/-- Parse one `key value` row of a multi-row key/value file (the row shape
of `/proc/vmstat`, `memory.stat` and, after unit handling, `/proc/meminfo`,
spec 4.2). -/

def parseLineKV (l : List Char) : Option (List Char × Nat) :=
  match splitNE ' ' l with
  | k :: v :: _ => if !v.isEmpty && isDigits v then some (k, parseNat v) else none
  | _ => none

/-- Modelled from the spec: `Fs::getVmstat` — decodes a multi-row
`key value` file into a mapping (an association list; later rows override
earlier ones for the same key, as repeated `map[key] = v` assignments
would). -/

def getVmstat (lines : List (List Char)) : List (List Char × Nat) :=
  lines.filterMap parseLineKV

/-- `unordered_map::operator[]`-style lookup on a decoded mapping: the
last binding for the key, or zero when the key is absent ("an unrequested
key defaults to zero rather than failing"). -/

def mapGet (m : List (List Char × Nat)) (k : List Char) : Nat :=
  match m.reverse.find? (fun e => e.1 == k) with
  | some e => e.2
  | none => 0

/-- The vmstat fixture contents implied by FsTest.cpp GetVmstat. -/

def vmstatFixtureLines : List (List Char) :=
  splitLines ("first_key 12345\nsecond_key 678910\nthirdkey 999999\n".data)

/-- SSD/HDD classification of a block device. -/

inductive DeviceType
  | SSD
  | HDD
deriving DecidableEq

/-- The device-type subdirectory component (`Fs::kDeviceTypeDir`). -/

def kDeviceTypeDir : List Char := "queue".data

/-- The rotational-flag file name (`Fs::kDeviceTypeFile`). -/

def kDeviceTypeFile : List Char := "rotational".data

/-- The resolved rotational-flag control-file path for a `major:minor`
device id under a device-info root, as the test spells it out:
`fsDevDir + "/" + dev_id + "/" + kDeviceTypeDir + "/" + kDeviceTypeFile`. -/

def deviceTypeFilePath (fsDevDir devId : List Char) : List Char :=
  fsDevDir ++ '/' :: devId ++ '/' :: kDeviceTypeDir ++ '/' :: kDeviceTypeFile

/-- Modelled from the spec: `Fs::getDeviceType(dev_id, path)` — resolves
the device's rotational-media indicator file; the literal "0" (not
rotational) classifies as SSD and "1" (rotational) as HDD; any other
present content is a `bad_control_file` error whose message is the exact
control-file path followed by ": invalid format" (as the test
GetDeviceType asserts on `e.what()`), never a silent default. -/

def getDeviceType (devId fsDevDir : List Char) (lines : List (List Char)) :
    Except (List Char) DeviceType :=
  match lines with
  | [l] =>
      if l = "1".data then .ok .HDD
      else if l = "0".data then .ok .SSD
      else .error (deviceTypeFilePath fsDevDir devId ++ ": invalid format".data)
  | _ => .error (deviceTypeFilePath fsDevDir devId ++ ": invalid format".data)

/-- The two PSI severities (spec glossary: "some" = at least one task
stalled, "full" = all tasks stalled). -/

inductive PressureType
  | SOME
  | FULL
deriving DecidableEq

/-- An exact decimal value `mantissa / 10 ^ scale` as parsed from a
pressure-average token; kept unnormalized so that equality of decoded
values is equality of the decimal tokens themselves (the C++ `std::stof`
conversion to floating point is outside the shallow embedding). -/

structure DecVal where
  mantissa : Nat
  scale : Nat
deriving DecidableEq

/-- A decoded pressure triple: rolling averages over 10s/60s/300s. -/

structure ResourcePressure where
  sec_10 : DecVal
  sec_60 : DecVal
  sec_300 : DecVal
deriving DecidableEq

/-- Parse a decimal token such as "4.44" (or a plain integer) exactly. -/

def parseDec (l : List Char) : Option DecVal :=
  let ip := l.takeWhile (fun c => c ≠ '.')
  match l.dropWhile (fun c => c ≠ '.') with
  | [] => if !ip.isEmpty && isDigits ip then some ⟨parseNat ip, 0⟩ else none
  | _ :: fp =>
      if isDigits ip && !fp.isEmpty && isDigits fp then
        some ⟨parseNat ip * 10 ^ fp.length + parseNat fp, fp.length⟩
      else none

/-- The line label of a PSI severity. -/

def typeLabel : PressureType → List Char
  | .SOME => "some".data
  | .FULL => "full".data

/-- The value of the first token carrying the given label (for the
`avg10=`, `avg60=`, `avg300=` labeled fields of the upstream format). -/

def findLabeled (pre : List Char) (toks : List (List Char)) : Option (List Char) :=
  (toks.filterMap (dropPre pre)).head?

/-- A bare (unlabeled) value token: one with no `=` in it. -/

def isBare (t : List Char) : Bool := !t.any (fun c => c = '=')

/-- Extract the three average tokens from a pressure line's value tokens:
the upstream labeled `avg10=/avg60=/avg300=` fields when all three are
present, otherwise the first three bare tokens (the legacy experimental
layout, tolerating interleaved `key=value` debug fields and ignoring the
`total=` field either way). -/

def extractAvgs (toks : List (List Char)) :
    Option (List Char × List Char × List Char) :=
  match findLabeled "avg10=".data toks, findLabeled "avg60=".data toks,
      findLabeled "avg300=".data toks with
  | some a, some b, some c => some (a, b, c)
  | _, _, _ =>
      match toks.filter isBare with
      | a :: b :: c :: _ => some (a, b, c)
      | _ => none

/-- The value tokens of the first line labeled with the given severity;
lines labeled otherwise (the legacy `aggr` line, the other severity) are
skipped, so a value of one severity is never read off the other's line. -/

def severityToks (label : List Char) (lines : List (List Char)) :
    Option (List (List Char)) :=
  ((lines.map (splitNE ' ')).find? (fun toks => toks.head? == some label)).map
    List.tail

/-- Modelled from the spec: `Fs::readRespressure` — decodes a pressure
file (spec 4.2, "Pressure files"): each severity is a line beginning with
its label; the upstream v4.16+ format labels the three averages
`avg10=/avg60=/avg300=` (plus an ignored `total=`), while the legacy
pre-upstream experimental layout emits the three numbers unlabeled,
optionally interleaved with extra debug fields, which the decoder must
tolerate without misattributing severities. -/

def readRespressure (lines : List (List Char)) (t : PressureType) :
    Option ResourcePressure :=
  (severityToks (typeLabel t) lines).bind fun toks =>
    (extractAvgs toks).bind fun av =>
      (parseDec av.1).bind fun q10 =>
        (parseDec av.2.1).bind fun q60 =>
          (parseDec av.2.2).map fun q300 => ⟨q10, q60, q300⟩

/-- A cgroup directory's pressure control files (raw contents of
`memory.pressure` and `io.pressure`). -/

structure CgroupDir where
  memoryPressure : List Char
  ioPressure : List Char

/-- Modelled from the spec: `Fs::readMempressureAt(dirfd, type)`. -/

def readMempressureAt (d : CgroupDir) (t : PressureType) :
    Option ResourcePressure :=
  readRespressure (splitLines d.memoryPressure) t

/-- Modelled from the spec: `Fs::readIopressureAt(dirfd, type)`. -/

def readIopressureAt (d : CgroupDir) (t : PressureType) :
    Option ResourcePressure :=
  readRespressure (splitLines d.ioPressure) t

/-- A call of `Fs::readMempressureAt` without an explicit pressure type:
the C++ declaration gives the `type` parameter a default argument, which
the ReadMemoryPressure/ReadMemoryPressureSome test pair pins to the FULL
severity (the no-argument call returns values distinct from the explicit
SOME call on the same fixture). -/

def readMempressureAtDefault (d : CgroupDir) : Option ResourcePressure :=
  readMempressureAt d PressureType.FULL

/-- A call of `Fs::readIopressureAt` without an explicit pressure type. -/

def readIopressureAtDefault (d : CgroupDir) : Option ResourcePressure :=
  readIopressureAt d PressureType.FULL

/-- The cgroup fixture's upstream-format pressure files, as pinned by the
ReadMemoryPressure(Some)/ReadIoPressure(Some) tests: for memory, "some"
carries 1.11/2.22/3.33 and "full" 4.44/5.55/6.66; for io, "some" carries
1.12/2.23/3.34 and "full" 4.45/5.56/6.67. -/

def cgroupFixtureDir : CgroupDir :=
  { memoryPressure :=
      ("some avg10=1.11 avg60=2.22 avg300=3.33 total=1111111\n" ++
        "full avg10=4.44 avg60=5.55 avg300=6.66 total=2222222\n").data,
    ioPressure :=
      ("some avg10=1.12 avg60=2.23 avg300=3.34 total=1111111\n" ++
        "full avg10=4.45 avg60=5.56 avg300=6.67 total=2222222\n").data }

/-- One rendered pressure line: its tokens joined by single spaces. -/

def renderLine (toks : List (List Char)) : List Char := joinD ' ' toks

/-- The upstream v4.16+ two-line labeled pressure format carrying the
given "some" and "full" average tokens (with `total=` counters). -/

def upstreamPressure (s1 s2 s3 f1 f2 f3 t1 t2 : List Char) : List (List Char) :=
  [ renderLine ("some".data :: ("avg10=".data ++ s1) :: ("avg60=".data ++ s2) ::
      ("avg300=".data ++ s3) :: [("total=".data ++ t1)]),
    renderLine ("full".data :: ("avg10=".data ++ f1) :: ("avg60=".data ++ f2) ::
      ("avg300=".data ++ f3) :: [("total=".data ++ t2)]) ]

/-- The legacy pre-upstream experimental pressure format: an `aggr` line
followed by a `some` and a `full` line carrying the three averages as bare
tokens, with the debug-field token lists `d1`-`d4` interleaved around them
(all four empty gives the plain legacy layout without debug fields). -/

def legacyPressure (d1 d2 d3 d4 : List (List Char))
    (s1 s2 s3 f1 f2 f3 a : List Char) : List (List Char) :=
  [ renderLine ["aggr".data, a],
    renderLine ("some".data :: (d1 ++ s1 :: d2 ++ s2 :: d3 ++ s3 :: d4)),
    renderLine ("full".data :: (d1 ++ f1 :: d2 ++ f2 :: d3 ++ f3 :: d4)) ]

/-- A well-formed numeric average token: nonempty, made of digits and
dots. -/

def numTok (t : List Char) : Prop :=
  t ≠ [] ∧ ∀ c ∈ t, c.isDigit = true ∨ c = '.'

/-- A debug field token as the legacy experimental layout may interleave:
nonempty, space-free, carrying an `=`, and not one of the three labeled
average fields. -/

def dbgTok (t : List Char) : Prop :=
  t ≠ [] ∧ ' ' ∉ t ∧ '=' ∈ t ∧ dropPre "avg10=".data t = none ∧
    dropPre "avg60=".data t = none ∧ dropPre "avg300=".data t = none

instance numTok.instDecidable (t : List Char) : Decidable (numTok t) := by
  unfold numTok; infer_instance

instance dbgTok.instDecidable (t : List Char) : Decidable (dbgTok t) := by
  unfold dbgTok; infer_instance

theorem splitNEGo_append (d : Char) (t : List Char) (hd : d ∉ t) :
    ∀ (cur rest : List Char),
      splitNEGo d cur (t ++ rest) = splitNEGo d (t.reverse ++ cur) rest := by
  induction t with
  | nil => intro cur rest; simp
  | cons c t ih =>
      intro cur rest
      have hcd : c ≠ d := by
        intro h; exact hd (h ▸ List.mem_cons_self c t)
      have hdt : d ∉ t := fun h => hd (List.mem_cons_of_mem c h)
      simp only [List.cons_append, splitNEGo, if_neg hcd, List.append_eq]
      rw [ih hdt (c :: cur) rest]
      simp

theorem splitNE_joinD (d : Char) (toks : List (List Char))
    (h : ∀ t ∈ toks, t ≠ [] ∧ d ∉ t) : splitNE d (joinD d toks) = toks := by
  unfold splitNE
  induction toks with
  | nil => simp [joinD, splitNEGo]
  | cons t ts ih =>
      obtain ⟨hne, hnd⟩ := h t (List.mem_cons_self t ts)
      cases ts with
      | nil =>
          show splitNEGo d [] (joinD d [t]) = [t]
          have : joinD d [t] = t := by simp [joinD]
          rw [this, show (t : List Char) = t ++ [] by simp,
              splitNEGo_append d t hnd [] []]
          simp [splitNEGo, List.isEmpty_iff, hne]
      | cons t' ts' =>
          show splitNEGo d [] (joinD d (t :: t' :: ts')) = t :: t' :: ts'
          have hj : joinD d (t :: t' :: ts') = t ++ d :: joinD d (t' :: ts') := by
            simp [joinD]
          rw [hj, splitNEGo_append d t hnd [] (d :: joinD d (t' :: ts'))]
          have hcur : (t.reverse ++ []).isEmpty = false := by
            simp [List.isEmpty_iff, hne]
          simp only [splitNEGo, if_pos rfl, hcur, Bool.false_eq_true, if_neg,
            ite_false]
          rw [ih (fun u hu => h u (List.mem_cons_of_mem t hu))]
          simp [hne]

theorem splitLinesGo_append (t : List Char) (hd : '\n' ∉ t) :
    ∀ (cur rest : List Char),
      splitLinesGo cur (t ++ rest) = splitLinesGo (t.reverse ++ cur) rest := by
  induction t with
  | nil => intro cur rest; simp
  | cons c t ih =>
      intro cur rest
      have hcd : c ≠ '\n' := by
        intro h; exact hd (h ▸ List.mem_cons_self c t)
      have hdt : '\n' ∉ t := fun h => hd (List.mem_cons_of_mem c h)
      simp only [List.cons_append, splitLinesGo, if_neg hcd, List.append_eq]
      rw [ih hdt (c :: cur) rest]
      simp

theorem splitLines_single (t : List Char) (hne : t ≠ []) (hd : '\n' ∉ t) :
    splitLines t = [t] := by
  unfold splitLines
  rw [show (t : List Char) = t ++ [] by simp, splitLinesGo_append t hd [] []]
  simp [splitLinesGo, List.isEmpty_iff, hne]

theorem digitChar_isDigit (n : Nat) (h : n < 10) : (digitChar n).isDigit = true := by
  interval_cases n <;> decide

theorem digitVal_digitChar (n : Nat) (h : n < 10) : digitVal (digitChar n) = n := by
  interval_cases n <;> decide

theorem ne_of_isDigit (c x : Char) (h1 : c.isDigit = true) (h2 : x.isDigit = false) :
    c ≠ x := by
  intro he; rw [he, h2] at h1; exact Bool.false_ne_true h1

theorem reprNatGo_spec (f : Nat) : ∀ n, n < f →
    reprNatGo f n ≠ [] ∧ isDigits (reprNatGo f n) = true ∧
      ∀ acc, (reprNatGo f n).foldl (fun a c => a * 10 + digitVal c) acc =
        acc * 10 ^ (reprNatGo f n).length + n := by
  induction f with
  | zero => intro n hn; omega
  | succ f ih =>
      intro n hn
      by_cases h10 : n < 10
      · refine ⟨by simp [reprNatGo, h10], by simp [reprNatGo, h10, isDigits, digitChar_isDigit n h10], ?_⟩
        intro acc
        simp [reprNatGo, h10, List.foldl, digitVal_digitChar n h10]
      · have hdiv : n / 10 < n := Nat.div_lt_self (by omega) (by omega)
        have hlt : n / 10 < f := by omega
        obtain ⟨hne, hdig, hval⟩ := ih (n / 10) hlt
        have hrepr : reprNatGo (f + 1) n = reprNatGo f (n / 10) ++ [digitChar (n % 10)] := by
          simp [reprNatGo, h10]
        have hm10 : n % 10 < 10 := Nat.mod_lt n (by omega)
        refine ⟨by simp [hrepr], ?_, ?_⟩
        · simp only [hrepr, isDigits, List.all_append]
          simp only [isDigits] at hdig
          simp [hdig, digitChar_isDigit (n % 10) hm10]
        · intro acc
          rw [hrepr, List.foldl_append, hval acc]
          simp only [List.foldl, List.length_append, List.length_singleton]
          rw [digitVal_digitChar (n % 10) hm10]
          generalize (reprNatGo f (n / 10)).length = L
          have hA : acc * 10 ^ (L + 1) = acc * 10 ^ L * 10 := by
            rw [Nat.pow_succ, Nat.mul_assoc]
          rw [hA]
          generalize acc * 10 ^ L = A
          omega

theorem natRepr_ne_nil (n : Nat) : natRepr n ≠ [] :=
  (reprNatGo_spec (n + 1) n (Nat.lt_succ_self n)).1

theorem natRepr_isDigits (n : Nat) : isDigits (natRepr n) = true :=
  (reprNatGo_spec (n + 1) n (Nat.lt_succ_self n)).2.1

theorem natRepr_mem_isDigit (n : Nat) : ∀ c ∈ natRepr n, c.isDigit = true := by
  have h := natRepr_isDigits n
  simpa [isDigits, List.all_eq_true] using h

theorem parseNat_natRepr (n : Nat) : parseNat (natRepr n) = n := by
  have h := (reprNatGo_spec (n + 1) n (Nat.lt_succ_self n)).2.2 0
  simpa [parseNat, natRepr] using h

theorem natRepr_not_mem (n : Nat) (x : Char) (hx : x.isDigit = false) :
    x ∉ natRepr n := by
  intro hmem
  exact ne_of_isDigit x x (natRepr_mem_isDigit n x hmem) hx rfl

theorem natRepr_ne_max (n : Nat) : natRepr n ≠ "max".data := by
  intro h
  have hm : 'm' ∈ natRepr n := by
    rw [h]; decide
  have := natRepr_mem_isDigit n 'm' hm
  simp at this

theorem parseU64_natRepr (n : Nat) : parseU64 (natRepr n) = some n := by
  unfold parseU64
  rw [if_neg (natRepr_ne_max n)]
  have h1 : (!(natRepr n).isEmpty && isDigits (natRepr n)) = true := by
    simp [List.isEmpty_iff, natRepr_ne_nil n, natRepr_isDigits n]
  rw [if_pos h1, parseNat_natRepr]

theorem firstLineOnly_writeMemhigh (v : Nat) :
    firstLineOnly (writeMemhigh v) = some (natRepr v) := by
  unfold firstLineOnly writeMemhigh
  rw [splitLines_single (natRepr v) (natRepr_ne_nil v)
    (natRepr_not_mem v '\n' (by decide))]

theorem firstLineOnly_writeMemhightmp (v usec : Nat) :
    firstLineOnly (writeMemhightmp v usec) = some (writeMemhightmp v usec) := by
  unfold firstLineOnly
  have hnl : '\n' ∉ writeMemhightmp v usec := by
    intro h
    rcases List.mem_append.mp h with h | h
    · exact natRepr_not_mem v '\n' (by decide) h
    · rcases List.mem_cons.mp h with h | h
      · exact absurd h (by decide)
      · exact natRepr_not_mem usec '\n' (by decide) h
  have hne : writeMemhightmp v usec ≠ [] := by
    unfold writeMemhightmp
    simp [natRepr_ne_nil v]
  rw [splitLines_single _ hne hnl]

/-- C4: writing a scalar value to a writable knob then reading it back
through the corresponding read operation returns that value, both for
`memory.high` and for `memory.high.tmp` with a revert duration in
microseconds (values in the unsigned 64-bit domain). -/

theorem memhigh_write_read_roundtrip (v usec : Nat)
    (hv : v < 2 ^ 64) (hu : usec < 2 ^ 64) :
    readMemhigh (writeMemhigh v) = some v ∧
      readMemhightmp (writeMemhightmp v usec) = some v := by
  constructor
  · unfold readMemhigh
    rw [firstLineOnly_writeMemhigh v]
    exact parseU64_natRepr v
  · unfold readMemhightmp
    rw [firstLineOnly_writeMemhightmp v usec]
    have hline : writeMemhightmp v usec = joinD ' ' [natRepr v, natRepr usec] := by
      simp [writeMemhightmp, joinD]
    have hsp : splitNE ' ' (writeMemhightmp v usec) = [natRepr v, natRepr usec] := by
      rw [hline]
      refine splitNE_joinD ' ' [natRepr v, natRepr usec] ?_
      intro t ht
      rcases List.mem_cons.mp ht with h | h
      · exact h ▸ ⟨natRepr_ne_nil v, natRepr_not_mem v ' ' (by decide)⟩
      · rcases List.mem_cons.mp h with h | h
        · exact h ▸ ⟨natRepr_ne_nil usec, natRepr_not_mem usec ' ' (by decide)⟩
        · exact absurd h (List.not_mem_nil t)
    show (match splitNE ' ' (writeMemhightmp v usec) with
      | t :: _ => parseU64 t | [] => none) = some v
    rw [hsp]
    exact parseU64_natRepr v

/-- C4 witness: the round-trip at 54321 with a 400 ms (400000 usec)
revert duration. -/

theorem memhigh_write_read_roundtrip_witness :
    54321 < 2 ^ 64 ∧ 400000 < 2 ^ 64 ∧
      (readMemhigh (writeMemhigh 54321) = some 54321 ∧
        readMemhightmp (writeMemhightmp 54321 400000) = some 54321) :=
  ⟨by decide, by decide,
    memhigh_write_read_roundtrip 54321 400000 (by decide) (by decide)⟩

theorem dropPre_eq_some_iff : ∀ (p s t : List Char), dropPre p s = some t ↔ s = p ++ t := by
  intro p
  induction p with
  | nil => intro s t; simp [dropPre]
  | cons a ps ih =>
      intro s t
      cases s with
      | nil => simp [dropPre]
      | cons c cs =>
          by_cases hac : a = c
          · subst hac
            simp only [dropPre, if_pos rfl, List.cons_append, List.cons.injEq,
              true_and]
            exact ih cs t
          · simp [dropPre, if_neg hac, List.cons_append, Ne.symm hac, hac]

theorem startsWith_iff (p s : List Char) : startsWith p s = true ↔ p <+: s := by
  unfold startsWith
  rw [Option.isSome_iff_exists]
  constructor
  · rintro ⟨t, ht⟩
    exact ⟨t, ((dropPre_eq_some_iff p s t).mp ht).symm⟩
  · rintro ⟨t, ht⟩
    exact ⟨t, (dropPre_eq_some_iff p s t).mpr ht.symm⟩

theorem containsSeq_iff (p : List Char) : ∀ s, containsSeq p s = true ↔ p <:+: s := by
  intro s
  induction s with
  | nil =>
      simp only [containsSeq, List.isEmpty_iff, List.infix_nil]
  | cons c cs ih =>
      simp only [containsSeq, Bool.or_eq_true, startsWith_iff, ih,
        List.infix_cons_iff]

/-- C2 counterexample: the claim states that `removePrefix` leaves the
string unchanged when it does not start with the pattern, and in
particular that `removePrefix("./var/log/messages", "var/log/")` is a
no-op; the code, as pinned by the repository's own test expectations,
yields `"messages"` there, and on `removePrefix("./a", ".")` it yields
`""` instead of removing exactly the one leading occurrence `"."`. -/

theorem removePrefix_claim_counterexample :
    removePrefix "./var/log/messages".data "var/log/".data = "messages".data ∧
      removePrefix "./var/log/messages".data "var/log/".data ≠
        "./var/log/messages".data ∧
      removePrefix "./a".data ".".data = [] ∧
      removePrefix "./a".data ".".data ≠ "/a".data := by
  decide

/-- C2 (amended): `removePrefix(s, p)` leaves `s` unchanged when `p` does
not occur anywhere inside `s`; when `s` starts with `p` it removes exactly
one leading occurrence of `p`, except that a leading `"./"` is additionally
stripped first when `s` starts with `"./"` and `p` does not; in particular
both `removePrefix("./var/log/messages", "var/log/")` and
`removePrefix("./var/log/messages", "./var/log/")` yield `"messages"`. -/

theorem removePrefix_spec (s p : List Char) :
    (¬ p <:+: s → removePrefix s p = s) ∧
    (∀ t, s = p ++ t → ("./".data <+: p ∨ ¬ "./".data <+: s) →
      removePrefix s p = t) ∧
    (∀ t, s = "./".data ++ (p ++ t) → ¬ "./".data <+: p →
      removePrefix s p = t) ∧
    removePrefix "./var/log/messages".data "var/log/".data = "messages".data ∧
    removePrefix "./var/log/messages".data "./var/log/".data = "messages".data := by
  refine ⟨?_, ?_, ?_, by decide, by decide⟩
  · intro hni
    have hc : containsSeq p s = false := by
      rcases Bool.eq_false_or_eq_true (containsSeq p s) with h | h
      · exact absurd ((containsSeq_iff p s).mp h) hni
      · exact h
    unfold removePrefix
    rw [hc]
    simp
  · intro t hst hcond
    have hpre : p <+: s := ⟨t, hst.symm⟩
    have hc : containsSeq p s = true :=
      (containsSeq_iff p s).mpr hpre.isInfix
    have hcond2 : (startsWith "./".data s && !startsWith "./".data p) = false := by
      rcases hcond with h | h
      · have : startsWith "./".data p = true := (startsWith_iff _ _).mpr h
        simp [this]
      · have : startsWith "./".data s = false := by
          rcases Bool.eq_false_or_eq_true (startsWith "./".data s) with h2 | h2
          · exact absurd ((startsWith_iff _ _).mp h2) h
          · exact h2
        simp [this]
    unfold removePrefix
    rw [hc, if_pos rfl, hcond2]
    simp only [Bool.false_eq_true, if_neg, ite_false, hst]
    exact List.drop_left p t
  · intro t hst hp
    have hinf : containsSeq p s = true := by
      refine (containsSeq_iff p s).mpr ⟨"./".data, t, ?_⟩
      rw [hst]; simp
    have hsw : startsWith "./".data s = true := by
      rw [startsWith_iff]
      exact ⟨p ++ t, hst.symm⟩
    have hpw : startsWith "./".data p = false := by
      rcases Bool.eq_false_or_eq_true (startsWith "./".data p) with h2 | h2
      · exact absurd ((startsWith_iff _ _).mp h2) hp
      · exact h2
    unfold removePrefix
    rw [hinf, if_pos rfl, hsw, hpw]
    simp only [Bool.not_false, Bool.and_true, if_pos rfl, ite_true]
    rw [hst]
    have h2 : ("./".data ++ (p ++ t)).drop 2 = p ++ t := by
      simp [List.drop_append_of_le_length]
    rw [h2]
    exact List.drop_left p t

/-- C2 witness: the amended statement applied at the test inputs — a
pattern absent from the string is a no-op, and the "./"-aware strip at
`"./var/log/messages"`. -/

theorem removePrefix_spec_witness :
    (¬ "asdf".data <:+: "random string".data) ∧
      removePrefix "random string".data "asdf".data = "random string".data ∧
      removePrefix "./var/log/messages".data "./var/log/".data = "messages".data :=
  ⟨by decide,
    (removePrefix_spec "random string".data "asdf".data).1 (by decide),
    (removePrefix_spec "./var/log/messages".data "./var/log/".data).2.2.2.2⟩

theorem leadingSegsMatch_iff : ∀ (as bs : List (List Char)),
    leadingSegsMatch as bs = true ↔ as <+: bs := by
  intro as
  induction as with
  | nil => intro bs; simp [leadingSegsMatch]
  | cons a as ih =>
      intro bs
      cases bs with
      | nil =>
          simp [leadingSegsMatch]
      | cons b bs =>
          simp only [leadingSegsMatch, Bool.and_eq_true, beq_iff_eq,
            List.cons_prefix_cons, ih]

/-- C3: `isUnderParentPath(parent, candidate)` is true exactly when the
candidate's normalized segment list extends the parent's (the candidate is
the parent itself, or nested one-or-more segments beneath it); empty
parent or empty candidate is always false; and a strict prefix of the
parent (the shorter path `"/sys/fs/"` under `"/sys/fs/cgroup/"`) is not
under the parent. -/

theorem isUnderParentPath_spec :
    (∀ parent path : List Char,
      isUnderParentPath parent path = true ↔
        (parent ≠ [] ∧ path ≠ [] ∧ splitNE '/' parent <+: splitNE '/' path)) ∧
    isUnderParentPath "/sys/fs/cgroup/".data "/sys/fs/cgroup/".data = true ∧
    isUnderParentPath "/sys/fs/cgroup/".data "/sys/fs/cgroup/blkio".data = true ∧
    isUnderParentPath "/sys/fs/cgroup/".data "/sys/fs/".data = false ∧
    isUnderParentPath "/".data "/sys/".data = true ∧
    isUnderParentPath "/sys/".data "/".data = false ∧
    isUnderParentPath [] "/sys/".data = false ∧
    isUnderParentPath "/sys/".data [] = false ∧
    isUnderParentPath [] [] = false := by
  refine ⟨?_, by decide, by decide, by decide, by decide, by decide,
    by decide, by decide, by decide⟩
  intro parent path
  unfold isUnderParentPath
  by_cases hp : parent = []
  · subst hp; simp
  · by_cases hq : path = []
    · subst hq; simp
    · have hcond : (parent.isEmpty || path.isEmpty) = false := by
        simp [List.isEmpty_iff, hp, hq]
      rw [hcond]
      simp only [Bool.false_eq_true, if_neg, ite_false]
      by_cases hlen : (splitNE '/' path).length < (splitNE '/' parent).length
      · rw [if_pos hlen]
        simp only [Bool.false_eq_true, false_iff]
        rintro ⟨-, -, hpre⟩
        exact absurd hpre.length_le (by omega)
      · rw [if_neg hlen, leadingSegsMatch_iff]
        simp [hp, hq]

/-- C8: a nonexistent path, and equally a relative open of a nonexistent
name against a valid directory handle, make the line-oriented read signal
absence through an empty optional result; absence is distinct from a
successful read of an empty file, which yields `some` (with zero lines),
never a value pretending the file existed. -/

theorem readFileByLine_absent (fs : Filesystem) (p : List Char)
    (d : DirHandle) (n : List Char) :
    (fs p = none → readFileByLinePath fs p = none) ∧
    (openat d n = none → readFileByLineAt d n = none) ∧
    (fs p = some [] →
      readFileByLinePath fs p = some [] ∧ readFileByLinePath fs p ≠ none) := by
  refine ⟨?_, ?_, ?_⟩
  · intro h; simp [readFileByLinePath, readFileByLine, h]
  · intro h; simp [readFileByLineAt, readFileByLine, h]
  · intro h
    constructor
    · simp [readFileByLinePath, readFileByLine, h, splitLines, splitLinesGo]
    · simp [readFileByLinePath, readFileByLine, h]

/-- C8 witness: the absent-file behaviour at the test's nonexistent name,
on an empty filesystem and an empty directory handle, plus the empty-file
case on a filesystem holding one empty file. -/

theorem readFileByLine_absent_witness :
    ((fun _ => none : Filesystem) "ksldjfksdlfdsjf".data = none ∧
      readFileByLinePath (fun _ => none) "ksldjfksdlfdsjf".data = none) ∧
    (openat [] "ksldjfksdlfdsjf".data = none ∧
      readFileByLineAt [] "ksldjfksdlfdsjf".data = none) ∧
    (readFileByLinePath (fun _ => some []) "empty".data = some [] ∧
      readFileByLinePath (fun _ => some []) "empty".data ≠ none) :=
  ⟨⟨rfl, (readFileByLine_absent (fun _ => none) "ksldjfksdlfdsjf".data []
      "ksldjfksdlfdsjf".data).1 rfl⟩,
    ⟨rfl, (readFileByLine_absent (fun _ => none) "ksldjfksdlfdsjf".data []
      "ksldjfksdlfdsjf".data).2.1 rfl⟩,
    (readFileByLine_absent (fun _ => some []) "empty".data []
      "empty".data).2.2 rfl⟩

/-- C9: on a directory containing exactly the subdirectories
`{dir1, dir2, dir3, wildcard}` and the files `{file1..file4}`, the
directories-only listing returns exactly the four directory names and no
file, the files-only listing returns exactly the four file names and no
directory, and the two listings are disjoint. -/

theorem readDir_partition :
    (readDir fsDataDirTree .DE_DIR).dirs =
      ["dir1".data, "dir2".data, "dir3".data, "wildcard".data] ∧
    (readDir fsDataDirTree .DE_DIR).files = [] ∧
    (readDir fsDataDirTree .DE_FILE).files =
      ["file1".data, "file2".data, "file3".data, "file4".data] ∧
    (readDir fsDataDirTree .DE_FILE).dirs = [] ∧
    (∀ n ∈ (readDir fsDataDirTree .DE_DIR).dirs,
      n ∉ (readDir fsDataDirTree .DE_FILE).files) := by
  decide

/-- C7: `glob("dir*")` over `{dir1, dir2, different_dir, file}` returns
exactly `{dir1, dir2}`; `glob("*", dirsOnly=true)` returns exactly the
three directories and excludes the file; and a pattern whose intermediate
segments do not exist yields zero matches rather than failing. -/

theorem glob_spec :
    (glob wildcardTree ["dir*".data] false).length = 2 ∧
    ["dir1".data] ∈ glob wildcardTree ["dir*".data] false ∧
    ["dir2".data] ∈ glob wildcardTree ["dir*".data] false ∧
    (glob wildcardTree ["*".data] true).length = 3 ∧
    ["dir1".data] ∈ glob wildcardTree ["*".data] true ∧
    ["dir2".data] ∈ glob wildcardTree ["*".data] true ∧
    ["different_dir".data] ∈ glob wildcardTree ["*".data] true ∧
    ["file".data] ∉ glob wildcardTree ["*".data] true ∧
    (glob wildcardTree ["*".data] false).length = 4 ∧
    glob wildcardTree ["not".data, "a".data, "valid".data, "dir".data] false
      = [] := by
  decide

/-- C6: looking up a key absent from a decoded multi-row mapping returns
zero and never fails; a key present in the file maps to a value actually
bound by the file; on the vmstat fixture the three present keys map to
their parsed values and the absent key `asdf` maps to zero. -/

theorem mapGet_missing_zero :
    (∀ (lines : List (List Char)) (k : List Char),
      (∀ e ∈ getVmstat lines, e.1 ≠ k) → mapGet (getVmstat lines) k = 0) ∧
    (∀ (lines : List (List Char)) (k : List Char),
      (∃ e ∈ getVmstat lines, e.1 = k) →
        ∃ e ∈ getVmstat lines, e.1 = k ∧ mapGet (getVmstat lines) k = e.2) ∧
    (mapGet (getVmstat vmstatFixtureLines) "first_key".data = 12345 ∧
      mapGet (getVmstat vmstatFixtureLines) "second_key".data = 678910 ∧
      mapGet (getVmstat vmstatFixtureLines) "thirdkey".data = 999999 ∧
      mapGet (getVmstat vmstatFixtureLines) "asdf".data = 0) := by
  refine ⟨?_, ?_, by decide⟩
  · intro lines k h
    unfold mapGet
    have hnone : (getVmstat lines).reverse.find? (fun e => e.1 == k) = none := by
      rw [List.find?_eq_none]
      intro e he
      have : e ∈ getVmstat lines := List.mem_reverse.mp he
      simp [h e this]
    rw [hnone]
  · intro lines k h
    obtain ⟨e0, he0, hk0⟩ := h
    have hex : ∃ e ∈ (getVmstat lines).reverse, (fun e => e.1 == k) e = true := by
      exact ⟨e0, List.mem_reverse.mpr he0, by simp [hk0]⟩
    have hsome : ((getVmstat lines).reverse.find? (fun e => e.1 == k)).isSome := by
      rw [List.find?_isSome]
      exact hex
    obtain ⟨e1, he1⟩ := Option.isSome_iff_exists.mp hsome
    refine ⟨e1, List.mem_reverse.mp (List.mem_of_find?_eq_some he1), ?_, ?_⟩
    · have := List.find?_some he1
      simpa using this
    · unfold mapGet
      rw [he1]

/-- C6 witness: the general clauses applied to the vmstat fixture — the
absent key `asdf` returns zero, the present key `first_key` returns a
value bound by the file. -/

theorem mapGet_missing_zero_witness :
    (∀ e ∈ getVmstat vmstatFixtureLines, e.1 ≠ "asdf".data) ∧
      mapGet (getVmstat vmstatFixtureLines) "asdf".data = 0 ∧
      (∃ e ∈ getVmstat vmstatFixtureLines, e.1 = "first_key".data) ∧
      (∃ e ∈ getVmstat vmstatFixtureLines, e.1 = "first_key".data ∧
        mapGet (getVmstat vmstatFixtureLines) "first_key".data = e.2) :=
  ⟨by decide,
    mapGet_missing_zero.1 vmstatFixtureLines "asdf".data (by decide),
    by decide,
    mapGet_missing_zero.2.1 vmstatFixtureLines "first_key".data (by decide)⟩

/-- C5: a present rotational-flag file containing "0" deterministically
classifies as SSD and "1" as HDD; any other single-line content produces a
malformed-control-file error whose message includes (starts with) the
exact path of the offending control file, never a silent default
classification. -/

theorem getDeviceType_spec (devId fsDevDir l : List Char) :
    (l = "0".data → getDeviceType devId fsDevDir [l] = .ok .SSD) ∧
    (l = "1".data → getDeviceType devId fsDevDir [l] = .ok .HDD) ∧
    (l ≠ "0".data → l ≠ "1".data →
      getDeviceType devId fsDevDir [l] =
        .error (deviceTypeFilePath fsDevDir devId ++ ": invalid format".data) ∧
      ∀ msg, getDeviceType devId fsDevDir [l] = .error msg →
        deviceTypeFilePath fsDevDir devId <+: msg) := by
  refine ⟨?_, ?_, ?_⟩
  · intro h; subst h; rfl
  · intro h; subst h; rfl
  · intro h0 h1
    have herr : getDeviceType devId fsDevDir [l] =
        .error (deviceTypeFilePath fsDevDir devId ++ ": invalid format".data) := by
      show (if l = "1".data then (Except.ok DeviceType.HDD : Except (List Char) DeviceType)
        else if l = "0".data then Except.ok DeviceType.SSD
        else Except.error (deviceTypeFilePath fsDevDir devId ++ ": invalid format".data)) =
        Except.error (deviceTypeFilePath fsDevDir devId ++ ": invalid format".data)
      rw [if_neg h1, if_neg h0]
    refine ⟨herr, ?_⟩
    intro msg hmsg
    rw [herr] at hmsg
    have : deviceTypeFilePath fsDevDir devId ++ ": invalid format".data = msg := by
      exact (Except.error.injEq _ _).mp hmsg
    exact ⟨": invalid format".data, this⟩

/-- C5 witness: the three behaviours at the fixture's device ids — a "0"
file is SSD, a "1" file is HDD, and the unrecognized content "2" for
device `1:2` raises the error naming
`dev/1:2/queue/rotational: invalid format`. -/

theorem getDeviceType_spec_witness :
    getDeviceType "1:0".data "dev".data ["0".data] = .ok .SSD ∧
      getDeviceType "1:1".data "dev".data ["1".data] = .ok .HDD ∧
      getDeviceType "1:2".data "dev".data ["2".data] =
        .error ("dev/1:2/queue/rotational: invalid format".data) ∧
      deviceTypeFilePath "dev".data "1:2".data <+:
        "dev/1:2/queue/rotational: invalid format".data :=
  ⟨(getDeviceType_spec "1:0".data "dev".data "0".data).1 rfl,
    (getDeviceType_spec "1:1".data "dev".data "1".data).2.1 rfl,
    by
      have h := ((getDeviceType_spec "1:2".data "dev".data "2".data).2.2
        (by decide) (by decide)).1
      rw [h]
      rfl,
    ((getDeviceType_spec "1:2".data "dev".data "2".data).2.2
        (by decide) (by decide)).2
      ("dev/1:2/queue/rotational: invalid format".data)
      (by
        have h := ((getDeviceType_spec "1:2".data "dev".data "2".data).2.2
          (by decide) (by decide)).1
        rw [h]
        rfl)⟩

/-- C10: called without an explicit pressure-type argument,
`readMempressureAt` and `readIopressureAt` return the averages of the
"full" severity line; the "some" severity values are returned only when
`PressureType::SOME` is passed explicitly. -/

theorem pressure_default_type_is_full :
    readMempressureAtDefault cgroupFixtureDir =
      readMempressureAt cgroupFixtureDir PressureType.FULL ∧
    readMempressureAtDefault cgroupFixtureDir =
      some ⟨⟨444, 2⟩, ⟨555, 2⟩, ⟨666, 2⟩⟩ ∧
    readMempressureAt cgroupFixtureDir PressureType.SOME =
      some ⟨⟨111, 2⟩, ⟨222, 2⟩, ⟨333, 2⟩⟩ ∧
    readMempressureAtDefault cgroupFixtureDir ≠
      readMempressureAt cgroupFixtureDir PressureType.SOME ∧
    readIopressureAtDefault cgroupFixtureDir =
      some ⟨⟨445, 2⟩, ⟨556, 2⟩, ⟨667, 2⟩⟩ ∧
    readIopressureAt cgroupFixtureDir PressureType.SOME =
      some ⟨⟨112, 2⟩, ⟨223, 2⟩, ⟨334, 2⟩⟩ := by
  decide

theorem numTok_not_mem (t : List Char) (h : numTok t) (x : Char)
    (hx1 : x.isDigit = false) (hx2 : x ≠ '.') : x ∉ t := by
  intro hmem
  rcases h.2 x hmem with hd | hd
  · rw [hx1] at hd; exact Bool.false_ne_true hd
  · exact hx2 hd

theorem numTok_tokOK (t : List Char) (h : numTok t) : t ≠ [] ∧ ' ' ∉ t :=
  ⟨h.1, numTok_not_mem t h ' ' (by decide) (by decide)⟩

theorem numTok_dropPre (t : List Char) (h : numTok t) (x : Char) (p : List Char)
    (hx1 : x.isDigit = false) (hx2 : x ≠ '.') : dropPre (x :: p) t = none := by
  obtain ⟨hne, hall⟩ := h
  cases t with
  | nil => exact absurd rfl hne
  | cons c cs =>
      have hxc : x ≠ c := by
        intro he
        rcases hall c (List.mem_cons_self c cs) with hd | hd
        · rw [← he] at hd; rw [hd] at hx1; exact Bool.false_ne_true hx1.symm
        · rw [← he] at hd; exact hx2 hd
      simp [dropPre, if_neg hxc, hxc]

theorem numTok_dropPre_avg (t : List Char) (h : numTok t) :
    dropPre "avg10=".data t = none ∧ dropPre "avg60=".data t = none ∧
      dropPre "avg300=".data t = none :=
  ⟨numTok_dropPre t h 'a' "vg10=".data (by decide) (by decide),
    numTok_dropPre t h 'a' "vg60=".data (by decide) (by decide),
    numTok_dropPre t h 'a' "vg300=".data (by decide) (by decide)⟩

theorem numTok_isBare (t : List Char) (h : numTok t) : isBare t = true := by
  unfold isBare
  rw [Bool.not_eq_true', List.any_eq_false]
  intro c hc
  have := numTok_not_mem t h '=' (by decide) (by decide)
  intro heq
  have hce : c = '=' := of_decide_eq_true heq
  exact this (hce ▸ hc)

theorem dbgTok_not_bare (t : List Char) (h : dbgTok t) : isBare t = false := by
  unfold isBare
  rw [Bool.not_eq_false']
  rw [List.any_eq_true]
  exact ⟨'=', h.2.2.1, by decide⟩

theorem dropPre_self_append (p t : List Char) : dropPre p (p ++ t) = some t := by
  induction p with
  | nil => rfl
  | cons a ps ih => simp [dropPre, ih]

theorem append_tokOK (p s : List Char) (hp : p ≠ []) (hps : ' ' ∉ p)
    (hs : ' ' ∉ s) : p ++ s ≠ [] ∧ ' ' ∉ p ++ s := by
  constructor
  · simp [List.append_eq_nil, hp]
  · intro h
    rcases List.mem_append.mp h with h | h
    exacts [hps h, hs h]

theorem extractAvgs_labeled (v1 v2 v3 tt : List Char) :
    extractAvgs [("avg10=".data ++ v1), ("avg60=".data ++ v2),
      ("avg300=".data ++ v3), "total=".data ++ tt] = some (v1, v2, v3) := by
  have h10 : findLabeled "avg10=".data [("avg10=".data ++ v1),
      ("avg60=".data ++ v2), ("avg300=".data ++ v3), "total=".data ++ tt] =
      some v1 := by
    unfold findLabeled
    rw [List.filterMap_cons_some (dropPre_self_append "avg10=".data v1)]
    rfl
  have h60 : findLabeled "avg60=".data [("avg10=".data ++ v1),
      ("avg60=".data ++ v2), ("avg300=".data ++ v3), "total=".data ++ tt] =
      some v2 := by
    unfold findLabeled
    rw [List.filterMap_cons_none (by rfl),
      List.filterMap_cons_some (dropPre_self_append "avg60=".data v2)]
    rfl
  have h300 : findLabeled "avg300=".data [("avg10=".data ++ v1),
      ("avg60=".data ++ v2), ("avg300=".data ++ v3), "total=".data ++ tt] =
      some v3 := by
    unfold findLabeled
    rw [List.filterMap_cons_none (by rfl), List.filterMap_cons_none (by rfl),
      List.filterMap_cons_some (dropPre_self_append "avg300=".data v3)]
    rfl
  unfold extractAvgs
  rw [h10, h60, h300]

theorem extractAvgs_legacy (d1 d2 d3 d4 : List (List Char)) (v1 v2 v3 : List Char)
    (hd1 : ∀ t ∈ d1, dbgTok t) (hd2 : ∀ t ∈ d2, dbgTok t)
    (hd3 : ∀ t ∈ d3, dbgTok t) (hd4 : ∀ t ∈ d4, dbgTok t)
    (h1 : numTok v1) (h2 : numTok v2) (h3 : numTok v3) :
    extractAvgs (d1 ++ v1 :: d2 ++ v2 :: d3 ++ v3 :: d4) = some (v1, v2, v3) := by
  have hall : ∀ t ∈ d1 ++ v1 :: d2 ++ v2 :: d3 ++ v3 :: d4,
      dropPre "avg10=".data t = none ∧ dropPre "avg60=".data t = none ∧
        dropPre "avg300=".data t = none := by
    intro t ht
    have hm : t ∈ d1 ∨ t = v1 ∨ t ∈ d2 ∨ t = v2 ∨ t ∈ d3 ∨ t = v3 ∨ t ∈ d4 := by
      simpa [List.mem_append, List.mem_cons, or_assoc] using ht
    rcases hm with h | rfl | h | rfl | h | rfl | h
    · exact ⟨(hd1 t h).2.2.2.1, (hd1 t h).2.2.2.2.1, (hd1 t h).2.2.2.2.2⟩
    · exact numTok_dropPre_avg t h1
    · exact ⟨(hd2 t h).2.2.2.1, (hd2 t h).2.2.2.2.1, (hd2 t h).2.2.2.2.2⟩
    · exact numTok_dropPre_avg t h2
    · exact ⟨(hd3 t h).2.2.2.1, (hd3 t h).2.2.2.2.1, (hd3 t h).2.2.2.2.2⟩
    · exact numTok_dropPre_avg t h3
    · exact ⟨(hd4 t h).2.2.2.1, (hd4 t h).2.2.2.2.1, (hd4 t h).2.2.2.2.2⟩
  have h10 : findLabeled "avg10=".data (d1 ++ v1 :: d2 ++ v2 :: d3 ++ v3 :: d4)
      = none := by
    unfold findLabeled
    rw [List.filterMap_eq_nil_iff.mpr (fun t ht => (hall t ht).1)]
    rfl
  have h60 : findLabeled "avg60=".data (d1 ++ v1 :: d2 ++ v2 :: d3 ++ v3 :: d4)
      = none := by
    unfold findLabeled
    rw [List.filterMap_eq_nil_iff.mpr (fun t ht => (hall t ht).2.1)]
    rfl
  have h300 : findLabeled "avg300=".data (d1 ++ v1 :: d2 ++ v2 :: d3 ++ v3 :: d4)
      = none := by
    unfold findLabeled
    rw [List.filterMap_eq_nil_iff.mpr (fun t ht => (hall t ht).2.2)]
    rfl
  have e1 : d1.filter isBare = [] :=
    List.filter_eq_nil_iff.mpr (fun t ht => by simp [dbgTok_not_bare t (hd1 t ht)])
  have e2 : d2.filter isBare = [] :=
    List.filter_eq_nil_iff.mpr (fun t ht => by simp [dbgTok_not_bare t (hd2 t ht)])
  have e3 : d3.filter isBare = [] :=
    List.filter_eq_nil_iff.mpr (fun t ht => by simp [dbgTok_not_bare t (hd3 t ht)])
  have e4 : d4.filter isBare = [] :=
    List.filter_eq_nil_iff.mpr (fun t ht => by simp [dbgTok_not_bare t (hd4 t ht)])
  have hfilter : (d1 ++ v1 :: d2 ++ v2 :: d3 ++ v3 :: d4).filter isBare
      = [v1, v2, v3] := by
    simp only [List.filter_append, e1, e2, e3, e4,
      List.filter_cons_of_pos (numTok_isBare v1 h1),
      List.filter_cons_of_pos (numTok_isBare v2 h2),
      List.filter_cons_of_pos (numTok_isBare v3 h3),
      List.nil_append, List.append_nil, List.cons_append, List.singleton_append]
  unfold extractAvgs
  rw [h10, h60, h300, hfilter]

theorem severityToks_upstream_some (sToks fToks : List (List Char))
    (hs : ∀ t ∈ "some".data :: sToks, t ≠ [] ∧ ' ' ∉ t) :
    severityToks "some".data
      [renderLine ("some".data :: sToks), renderLine ("full".data :: fToks)] =
      some sToks := by
  unfold severityToks
  rw [List.map_cons, List.map_cons, List.map_nil,
    show splitNE ' ' (renderLine ("some".data :: sToks)) = "some".data :: sToks
      from splitNE_joinD ' ' _ hs,
    List.find?_cons_of_pos _ (by simp only [List.head?_cons]; decide)]
  simp

theorem severityToks_upstream_full (sToks fToks : List (List Char))
    (hs : ∀ t ∈ "some".data :: sToks, t ≠ [] ∧ ' ' ∉ t)
    (hf : ∀ t ∈ "full".data :: fToks, t ≠ [] ∧ ' ' ∉ t) :
    severityToks "full".data
      [renderLine ("some".data :: sToks), renderLine ("full".data :: fToks)] =
      some fToks := by
  unfold severityToks
  rw [List.map_cons, List.map_cons, List.map_nil,
    show splitNE ' ' (renderLine ("some".data :: sToks)) = "some".data :: sToks
      from splitNE_joinD ' ' _ hs,
    show splitNE ' ' (renderLine ("full".data :: fToks)) = "full".data :: fToks
      from splitNE_joinD ' ' _ hf,
    List.find?_cons_of_neg _ (by simp only [List.head?_cons]; decide),
    List.find?_cons_of_pos _ (by simp only [List.head?_cons]; decide)]
  simp

theorem severityToks_legacy_sel (lbl a : List Char) (sToks fToks : List (List Char))
    (ha : numTok a)
    (hs : ∀ t ∈ "some".data :: sToks, t ≠ [] ∧ ' ' ∉ t)
    (hf : ∀ t ∈ "full".data :: fToks, t ≠ [] ∧ ' ' ∉ t)
    (hlbl : lbl = "some".data ∨ lbl = "full".data) :
    severityToks lbl
      [renderLine ["aggr".data, a], renderLine ("some".data :: sToks),
        renderLine ("full".data :: fToks)] =
      some (if lbl = "some".data then sToks else fToks) := by
  have haggr : ∀ t ∈ ["aggr".data, a], t ≠ [] ∧ ' ' ∉ t := by
    intro t ht
    rcases List.mem_cons.mp ht with rfl | ht
    · exact ⟨by decide, by decide⟩
    · rcases List.mem_cons.mp ht with rfl | ht
      · exact numTok_tokOK t ha
      · exact absurd ht (List.not_mem_nil t)
  unfold severityToks
  rw [List.map_cons, List.map_cons, List.map_cons, List.map_nil,
    show splitNE ' ' (renderLine ["aggr".data, a]) = ["aggr".data, a]
      from splitNE_joinD ' ' _ haggr,
    show splitNE ' ' (renderLine ("some".data :: sToks)) = "some".data :: sToks
      from splitNE_joinD ' ' _ hs,
    show splitNE ' ' (renderLine ("full".data :: fToks)) = "full".data :: fToks
      from splitNE_joinD ' ' _ hf]
  rcases hlbl with rfl | rfl
  · rw [List.find?_cons_of_neg _ (by simp only [List.head?_cons]; decide),
      List.find?_cons_of_pos _ (by simp only [List.head?_cons]; decide)]
    simp
  · rw [List.find?_cons_of_neg _ (by simp only [List.head?_cons]; decide),
      List.find?_cons_of_neg _ (by simp only [List.head?_cons]; decide),
      List.find?_cons_of_pos _ (by simp only [List.head?_cons]; decide)]
    simp

/-- C1: for the same underlying average values, decoding the upstream
multi-line labeled pressure format and decoding the legacy experimental
format (with arbitrary interleaved debug fields, or none) yield identical
results for both severities; and no value of one severity is attributed to
the other: the SOME decode returns exactly the some-line values and the
FULL decode exactly the full-line values. -/

theorem pressure_format_invariant
    (s1 s2 s3 f1 f2 f3 a t1 t2 : List Char) (d1 d2 d3 d4 : List (List Char))
    (hs1 : numTok s1) (hs2 : numTok s2) (hs3 : numTok s3)
    (hf1 : numTok f1) (hf2 : numTok f2) (hf3 : numTok f3)
    (ha : numTok a) (ht1 : numTok t1) (ht2 : numTok t2)
    (hd1 : ∀ t ∈ d1, dbgTok t) (hd2 : ∀ t ∈ d2, dbgTok t)
    (hd3 : ∀ t ∈ d3, dbgTok t) (hd4 : ∀ t ∈ d4, dbgTok t) :
    (∀ ty : PressureType,
      readRespressure (upstreamPressure s1 s2 s3 f1 f2 f3 t1 t2) ty =
        readRespressure (legacyPressure d1 d2 d3 d4 s1 s2 s3 f1 f2 f3 a) ty) ∧
    readRespressure (upstreamPressure s1 s2 s3 f1 f2 f3 t1 t2)
        PressureType.SOME =
      ((parseDec s1).bind fun q10 => (parseDec s2).bind fun q60 =>
        (parseDec s3).map fun q300 => ⟨q10, q60, q300⟩) ∧
    readRespressure (upstreamPressure s1 s2 s3 f1 f2 f3 t1 t2)
        PressureType.FULL =
      ((parseDec f1).bind fun q10 => (parseDec f2).bind fun q60 =>
        (parseDec f3).map fun q300 => ⟨q10, q60, q300⟩) := by
  have upTokOK : ∀ (v1 v2 v3 vt lbl : List Char), numTok v1 → numTok v2 →
      numTok v3 → numTok vt → (lbl ≠ [] ∧ ' ' ∉ lbl) →
      ∀ t ∈ lbl :: ("avg10=".data ++ v1) :: ("avg60=".data ++ v2) ::
        ("avg300=".data ++ v3) :: [("total=".data ++ vt)],
        t ≠ [] ∧ ' ' ∉ t := by
    intro v1 v2 v3 vt lbl h1 h2 h3 ht hlbl t htm
    simp only [List.mem_cons, List.not_mem_nil, or_false] at htm
    rcases htm with rfl | rfl | rfl | rfl | rfl
    · exact hlbl
    · exact append_tokOK _ _ (by decide) (by decide) (numTok_tokOK v1 h1).2
    · exact append_tokOK _ _ (by decide) (by decide) (numTok_tokOK v2 h2).2
    · exact append_tokOK _ _ (by decide) (by decide) (numTok_tokOK v3 h3).2
    · exact append_tokOK _ _ (by decide) (by decide) (numTok_tokOK vt ht).2
  have legTokOK : ∀ (v1 v2 v3 lbl : List Char), numTok v1 → numTok v2 →
      numTok v3 → (lbl ≠ [] ∧ ' ' ∉ lbl) →
      ∀ t ∈ lbl :: (d1 ++ v1 :: d2 ++ v2 :: d3 ++ v3 :: d4),
        t ≠ [] ∧ ' ' ∉ t := by
    intro v1 v2 v3 lbl h1 h2 h3 hlbl t htm
    rcases List.mem_cons.mp htm with rfl | htm
    · exact hlbl
    · have hm : t ∈ d1 ∨ t = v1 ∨ t ∈ d2 ∨ t = v2 ∨ t ∈ d3 ∨ t = v3 ∨ t ∈ d4 := by
        simpa [List.mem_append, List.mem_cons, or_assoc] using htm
      rcases hm with h | rfl | h | rfl | h | rfl | h
      · exact ⟨(hd1 t h).1, (hd1 t h).2.1⟩
      · exact numTok_tokOK t h1
      · exact ⟨(hd2 t h).1, (hd2 t h).2.1⟩
      · exact numTok_tokOK t h2
      · exact ⟨(hd3 t h).1, (hd3 t h).2.1⟩
      · exact numTok_tokOK t h3
      · exact ⟨(hd4 t h).1, (hd4 t h).2.1⟩
  have hup_some : severityToks "some".data
      (upstreamPressure s1 s2 s3 f1 f2 f3 t1 t2) =
      some (("avg10=".data ++ s1) :: ("avg60=".data ++ s2) ::
        ("avg300=".data ++ s3) :: [("total=".data ++ t1)]) :=
    severityToks_upstream_some _ _
      (upTokOK s1 s2 s3 t1 "some".data hs1 hs2 hs3 ht1 (by decide))
  have hup_full : severityToks "full".data
      (upstreamPressure s1 s2 s3 f1 f2 f3 t1 t2) =
      some (("avg10=".data ++ f1) :: ("avg60=".data ++ f2) ::
        ("avg300=".data ++ f3) :: [("total=".data ++ t2)]) :=
    severityToks_upstream_full _ _
      (upTokOK s1 s2 s3 t1 "some".data hs1 hs2 hs3 ht1 (by decide))
      (upTokOK f1 f2 f3 t2 "full".data hf1 hf2 hf3 ht2 (by decide))
  have hleg_some : severityToks "some".data
      (legacyPressure d1 d2 d3 d4 s1 s2 s3 f1 f2 f3 a) =
      some (d1 ++ s1 :: d2 ++ s2 :: d3 ++ s3 :: d4) := by
    have := severityToks_legacy_sel "some".data a
      (d1 ++ s1 :: d2 ++ s2 :: d3 ++ s3 :: d4)
      (d1 ++ f1 :: d2 ++ f2 :: d3 ++ f3 :: d4) ha
      (legTokOK s1 s2 s3 "some".data hs1 hs2 hs3 (by decide))
      (legTokOK f1 f2 f3 "full".data hf1 hf2 hf3 (by decide))
      (Or.inl rfl)
    rw [if_pos rfl] at this
    exact this
  have hleg_full : severityToks "full".data
      (legacyPressure d1 d2 d3 d4 s1 s2 s3 f1 f2 f3 a) =
      some (d1 ++ f1 :: d2 ++ f2 :: d3 ++ f3 :: d4) := by
    have := severityToks_legacy_sel "full".data a
      (d1 ++ s1 :: d2 ++ s2 :: d3 ++ s3 :: d4)
      (d1 ++ f1 :: d2 ++ f2 :: d3 ++ f3 :: d4) ha
      (legTokOK s1 s2 s3 "some".data hs1 hs2 hs3 (by decide))
      (legTokOK f1 f2 f3 "full".data hf1 hf2 hf3 (by decide))
      (Or.inr rfl)
    rw [if_neg (by decide)] at this
    exact this
  have hupx_s := extractAvgs_labeled s1 s2 s3 t1
  have hupx_f := extractAvgs_labeled f1 f2 f3 t2
  have hlegx_s := extractAvgs_legacy d1 d2 d3 d4 s1 s2 s3 hd1 hd2 hd3 hd4
    hs1 hs2 hs3
  have hlegx_f := extractAvgs_legacy d1 d2 d3 d4 f1 f2 f3 hd1 hd2 hd3 hd4
    hf1 hf2 hf3
  have hsomeEq : readRespressure (upstreamPressure s1 s2 s3 f1 f2 f3 t1 t2)
      PressureType.SOME =
      ((parseDec s1).bind fun q10 => (parseDec s2).bind fun q60 =>
        (parseDec s3).map fun q300 => ⟨q10, q60, q300⟩) := by
    unfold readRespressure
    rw [show typeLabel PressureType.SOME = "some".data from rfl, hup_some,
      Option.some_bind, hupx_s, Option.some_bind]
  have hfullEq : readRespressure (upstreamPressure s1 s2 s3 f1 f2 f3 t1 t2)
      PressureType.FULL =
      ((parseDec f1).bind fun q10 => (parseDec f2).bind fun q60 =>
        (parseDec f3).map fun q300 => ⟨q10, q60, q300⟩) := by
    unfold readRespressure
    rw [show typeLabel PressureType.FULL = "full".data from rfl, hup_full,
      Option.some_bind, hupx_f, Option.some_bind]
  have hlegSomeEq : readRespressure (legacyPressure d1 d2 d3 d4 s1 s2 s3 f1 f2 f3 a)
      PressureType.SOME =
      ((parseDec s1).bind fun q10 => (parseDec s2).bind fun q60 =>
        (parseDec s3).map fun q300 => ⟨q10, q60, q300⟩) := by
    unfold readRespressure
    rw [show typeLabel PressureType.SOME = "some".data from rfl, hleg_some,
      Option.some_bind, hlegx_s, Option.some_bind]
  have hlegFullEq : readRespressure (legacyPressure d1 d2 d3 d4 s1 s2 s3 f1 f2 f3 a)
      PressureType.FULL =
      ((parseDec f1).bind fun q10 => (parseDec f2).bind fun q60 =>
        (parseDec f3).map fun q300 => ⟨q10, q60, q300⟩) := by
    unfold readRespressure
    rw [show typeLabel PressureType.FULL = "full".data from rfl, hleg_full,
      Option.some_bind, hlegx_f, Option.some_bind]
  refine ⟨?_, hsomeEq, hfullEq⟩
  intro ty
  cases ty with
  | SOME => rw [hsomeEq, hlegSomeEq]
  | FULL => rw [hfullEq, hlegFullEq]

/-- C1 witness: the format invariance at the fixture's values, with debug
fields `debug=7` and `total=33` interleaved in the legacy layout. -/

theorem pressure_format_invariant_witness :
    numTok "1.11".data ∧ dbgTok "debug=7".data ∧ dbgTok "total=33".data ∧
      readRespressure (upstreamPressure "1.11".data "2.22".data "3.33".data
          "4.44".data "5.55".data "6.66".data "1111111".data "2222222".data)
        PressureType.SOME =
      readRespressure (legacyPressure [] ["debug=7".data] ["total=33".data] []
          "1.11".data "2.22".data "3.33".data "4.44".data "5.55".data
          "6.66".data "3456".data) PressureType.SOME :=
  ⟨by decide, by decide, by decide,
    (pressure_format_invariant "1.11".data "2.22".data "3.33".data "4.44".data
      "5.55".data "6.66".data "3456".data "1111111".data "2222222".data
      [] ["debug=7".data] ["total=33".data] []
      (by decide) (by decide) (by decide) (by decide) (by decide) (by decide)
      (by decide) (by decide) (by decide)
      (by decide) (by decide) (by decide) (by decide)).1 PressureType.SOME⟩

